import Mathlib

/-!
MCQ-Schedule: the read handlers of `src/functions/mcq-get.js`.

A shallow embedding of the three operations of the class `mcq_get`
(`#schedule`, `#question`, `#list`) together with the parts of lodash and
moment they call, followed by the properties of the specification that are
settled on it.

Conventions of the embedding.

* A JavaScript value is a `Value`; a plain object (a Firestore document, the
  validated query) is a `Record`, an association list read by first occurrence.
* The document store is a parameter: the documents a query returned are passed
  in (`results`, `question`, `batch`). A store failure is not modelled.
* The clock is a parameter `now`, the whole seconds since the epoch that
  `moment()` reads (milliseconds are dropped, as `unix()` floors them away).
* `files/timetable.json`, `files/configs.json` and the message constants of
  `utils/string` are not part of the sources: they are parameters
  (`Timetable`, `List SlotConfig`, `ErrorStrings`).
* A response envelope is `resp_200 body` or `resp_500 message`
  (the body of `resp_500` is `{error: message}`).
-/

namespace McqGet

/-! ## JavaScript values and plain objects -/

/-- A JavaScript value. `obj` stands for any object or array value: it is
always truthy and `===` compares it by reference. -/
inductive Value where
  | undefined : Value
  | null : Value
  | bool (b : Bool) : Value
  | num (n : Int) : Value
  | str (s : String) : Value
  | obj (ref : Nat) : Value
  deriving DecidableEq, Repr

/-- JavaScript truthiness (`ToBoolean`). -/
def truthy : Value → Bool
  | .undefined => false
  | .null => false
  | .bool b => b
  | .num n => n != 0
  | .str s => s != ""
  | .obj _ => true

/-- The operator `===` on values. -/
def strictEq (a b : Value) : Bool := decide (a = b)

/-- The operator `!`. -/
def jsNot (a : Value) : Value := .bool (!truthy a)

/-- The operator `&&`: the left operand when it is falsy, else the right one. -/
def jsAnd (a b : Value) : Value := if truthy a then b else a

/-- The operator `||`: the left operand when it is truthy, else the right one. -/
def jsOr (a b : Value) : Value := if truthy a then a else b

/-- A plain object: its own enumerable properties in insertion order. -/
abbrev Record := List (String × Value)

/-- The operator `key in object` for an own property. -/
def hasKey (o : Record) (k : String) : Bool := o.any (fun kv => kv.1 == k)

/-- Own property lookup, `none` when the key is absent. -/
def lookup (o : Record) (k : String) : Option Value :=
  match o with
  | [] => none
  | (k', v) :: rest => if k' == k then some v else lookup rest k

/-- Property read `object[key]`: `undefined` when the key is absent. -/
def getProp (o : Record) (k : String) : Value := (lookup o k).getD .undefined

/-- Property write `object[key] = value`: an existing key keeps its place. -/
def setProp (o : Record) (k : String) (v : Value) : Record :=
  match o with
  | [] => [(k, v)]
  | (k', v') :: rest => if k' == k then (k, v) :: rest else (k', v') :: setProp rest k v

/-- `Object.assign(target, source)` and the spread `{...target, ...source}`. -/
def assign (target source : Record) : Record :=
  source.foldl (fun acc kv => setProp acc kv.1 kv.2) target

/-! ## lodash -/

/-- `_.omit(object, paths)` for top-level property names. -/
def omitPaths (o : Record) (paths : List String) : Record :=
  o.filter (fun kv => !paths.contains kv.1)

/-- `_.pick(object, paths)` for top-level property names: the paths that are
present in the object, in the order of `paths`. -/
def pick (o : Record) (paths : List String) : Record :=
  paths.filterMap (fun k => (lookup o k).map (fun v => (k, v)))

/-- `_.take(array, n)`. -/
def take {α : Type} (xs : List α) (n : Nat) : List α := xs.take n

/-- `_.last(array)`. -/
def last {α : Type} (xs : List α) : Option α := xs.getLast?

/-- `_.find(collection, predicate)`: the first element the predicate accepts. -/
def find {α : Type} (xs : List α) (p : α → Bool) : Option α := xs.find? p

/-- `_.compact(array)` as lodash runs it on whatever it is given: it reads
`array.length` and keeps the truthy `array[0] .. array[length - 1]`. On a plain
object without a numeric `length` property the loop `while (++index < length)`
never runs and the result is the empty array. -/
def compact (array : Record) : List Value :=
  match lookup array "length" with
  | some (.num n) =>
      ((List.range n.toNat).map (fun i => getProp array (toString i))).filter truthy
  | _ => []

/-- `_.compact(array)` on a true array whose elements are objects (kept) or
`undefined` (dropped). -/
def compactObjects {α : Type} (xs : List (Option α)) : List α := xs.filterMap id

/-- A JavaScript array that may carry extra named properties, such as the
`filter` of `#list` after `filter.approved = true`. -/
structure JsArray where
  elems : List Value
  props : Record
  deriving DecidableEq, Repr

/-- The own enumerable keys with their values that lodash sees after
`baseClone(source, CLONE_DEEP_FLAG)` of an array: `baseClone` copies the
indexed elements only (`arrayEach(props || value, ...)` with `props`
undefined for an array), so named properties are not carried over. -/
def cloneArray (a : JsArray) : Record :=
  (List.range a.elems.length).zipWith (fun i v => (toString i, v)) a.elems

/-- `baseIsMatch(object, source)` for a source whose values are strict
comparable (primitives): every source property must be `===` to the object's,
and an `undefined` source value also needs the key to be present. Object-valued
sources, which lodash compares deeply, do not occur in this program. -/
def isMatch (object source : Record) : Bool :=
  source.all (fun kv =>
    strictEq kv.2 (getProp object kv.1) &&
      (!(strictEq (getProp object kv.1) .undefined) || hasKey object kv.1))

/-- `_.matches(source)(object)` for a plain-object source. -/
def matchesSource (source : Record) (object : Record) : Bool := isMatch object source

/-- `_.matches(source)(object)` for an array source: the source is cloned first. -/
def matchesArray (source : JsArray) (object : Record) : Bool :=
  isMatch object (cloneArray source)

/-! ## moment, at the fixed offset `+05:30` -/

/-- The offset `+05:30` in seconds. -/
def utcOffset : Nat := 19800

/-- The wall clock of `moment().utcOffset("+05:30")`: the seconds since the
epoch shifted by the offset, on which the getters and setters work. -/
def localClock (now : Nat) : Nat := now + utcOffset

/-- The setter `.hour(h)`: replaces the hour of the day, overflowing into the
following days when `h` exceeds 23 as `setUTCHours` does. -/
def setHour (clock h : Nat) : Nat := clock - clock % 86400 + h * 3600 + clock % 3600

/-- The setter `.minute(m)`. -/
def setMinute (clock m : Nat) : Nat := clock - clock % 3600 + m * 60 + clock % 60

/-- The setter `.second(s)`. -/
def setSecond (clock s : Nat) : Nat := clock - clock % 60 + s

/-- The getter `.day()`: 0 is Sunday; the epoch fell on a Thursday. -/
def weekday (clock : Nat) : Nat := (clock / 86400 + 4) % 7

/-- The weekday parser of the English locale, `weekdaysParse`: weekday `i` is
recognised by the case-insensitive pattern `^Sunday|^Sun|^Su` (and so on),
that is by its first two letters. Day keys are taken to be names: a numeric
key, which moment reads with `parseInt`, is outside the model. -/
def weekdaysParse (name : String) : Option Nat :=
  let head := (name.data.take 2).map Char.toLower
  if head = ['s', 'u'] then some 0
  else if head = ['m', 'o'] then some 1
  else if head = ['t', 'u'] then some 2
  else if head = ['w', 'e'] then some 3
  else if head = ['t', 'h'] then some 4
  else if head = ['f', 'r'] then some 5
  else if head = ['s', 'a'] then some 6
  else none

/-- The setter `.day(name)`: moves within the current Sunday-based week by
`add(input - day, "d")`; an unparseable name gives `null`, which counts as 0. -/
def setDay (clock : Nat) (name : String) : Int :=
  (clock : Int) + (((weekdaysParse name).getD 0 : Nat) - (weekday clock : Int)) * 86400

/-- The getter `.unix()`: back from the wall clock to seconds since the epoch. -/
def unix (clock : Int) : Int := clock - utcOffset

/-- The chain `moment().utcOffset("+05:30").hour(startHr).minute(0).second(0).day(day).unix()`. -/
def slotInstant (now startHr : Nat) (day : String) : Int :=
  unix (setDay (setSecond (setMinute (setHour (localClock now) startHr) 0) 0) day)

/-- The chain `moment().utcOffset("+05:30").second(0).unix()`. -/
def currentMinute (now : Nat) : Int :=
  unix (setSecond (localClock now) 0)

/-! ## The request context and the static configuration -/

/-- The `user` object that `authenticate` leaves on the handler. -/
structure User where
  code : Option String
  admin : Bool
  deriving DecidableEq, Repr

/-- The AuthContext left by `authenticate`: `this.auth` and `this.user`. -/
structure AuthContext where
  auth : Bool
  user : Option User
  deriving DecidableEq, Repr

/-- The expression `this.user?.code`. -/
def AuthContext.userCode (ctx : AuthContext) : Value :=
  match ctx.user with
  | none => .undefined
  | some u =>
    match u.code with
    | none => .undefined
    | some c => .str c

/-- The expression `this.user?.admin`. -/
def AuthContext.userAdmin (ctx : AuthContext) : Value :=
  match ctx.user with
  | none => .undefined
  | some u => .bool u.admin

/-- An entry of `files/timetable.json` under a day and a slot code. -/
structure SlotEntry where
  topic : String
  assignee : String
  deriving DecidableEq, Repr

/-- The file `files/timetable.json` as `entries` enumerates it: the days in
order, each with its slots in order. -/
abbrev Timetable := List (String × List (String × SlotEntry))

/-- An element of `configs.slots` in `files/configs.json`. -/
structure SlotConfig where
  code : String
  startHr : Nat
  deriving DecidableEq, Repr

/-- The message constants `error.ALREADY_POSTED` and `error.NO_SCHEDULE` of
`utils/string`. -/
structure ErrorStrings where
  ALREADY_POSTED : String
  NO_SCHEDULE : String
  deriving DecidableEq, Repr

/-- A response envelope: `resp_200(body)` or `resp_500({error: message})`. -/
inductive Response (β : Type) where
  | resp_200 (body : β) : Response β
  | resp_500 (error : String) : Response β
  deriving DecidableEq, Repr

/-- The `try ... catch (error) { return this.resp_500({ error: error.message }) }`
around each operation. -/
def respond {β : Type} (r : Except String β) : Response β :=
  match r with
  | .ok body => .resp_200 body
  | .error message => .resp_500 message

/-! ## `#schedule` -/

/-- The validated query of `#schedule`: the validator's `error`, the validated
`data.topic` and the raw `this.query.topic`. -/
structure ScheduleQuery where
  err : Option String
  dataTopic : Value
  queryTopic : Value
  deriving DecidableEq, Repr

/-- The message of the `TypeError` thrown by
`const { startHr } = find(configs.slots, { code: slot })` when no slot has the
code (the text is the engine's). -/
def destructureError : String :=
  "Cannot destructure property 'startHr' of 'find(...)' as it is undefined."

/-- The approved submission of the caller for the topic in the current week:
`find(results.docs, r => matches({approved: true, topic: data.topic, author: this.user?.code})(r.data()))`. -/
def findPosted (ctx : AuthContext) (q : ScheduleQuery) (results : List Record) : Option Record :=
  find results (matchesSource
    [("approved", .bool true), ("topic", q.dataTopic), ("author", ctx.userCode)])

/-- The test `assignee === this.user?.code && topic === this.query.topic`. -/
def slotMatches (ctx : AuthContext) (q : ScheduleQuery) (e : SlotEntry) : Bool :=
  strictEq (.str e.assignee) ctx.userCode && strictEq (.str e.topic) q.queryTopic

/-- The inner loop over the slots of one day, threading the variable `schedule`. -/
def scanSlots (ctx : AuthContext) (q : ScheduleQuery) (slots : List SlotConfig) (now : Nat)
    (day : String) : List (String × SlotEntry) → Option Int → Except String (Option Int)
  | [], schedule => .ok schedule
  | (slot, e) :: rest, schedule =>
    if slotMatches ctx q e then
      match find slots (fun c => c.code == slot) with
      | none => .error destructureError
      | some c => scanSlots ctx q slots now day rest (some (slotInstant now c.startHr day))
    else scanSlots ctx q slots now day rest schedule

/-- The outer loop over the days of the timetable. -/
def scanDays (ctx : AuthContext) (q : ScheduleQuery) (slots : List SlotConfig) (now : Nat) :
    Timetable → Option Int → Except String (Option Int)
  | [], schedule => .ok schedule
  | (day, daySlots) :: rest, schedule =>
    match scanSlots ctx q slots now day daySlots schedule with
    | .error message => .error message
    | .ok schedule' => scanDays ctx q slots now rest schedule'

/-- The test `!schedule` on the variable `schedule` (`undefined` or a number). -/
def scheduleFalsy (schedule : Option Int) : Bool :=
  match schedule with
  | none => true
  | some s => s == 0

/-- The body of the `try` block of `#schedule`. -/
def scheduleBody (msgs : ErrorStrings) (timetable : Timetable) (slots : List SlotConfig)
    (now : Nat) (ctx : AuthContext) (q : ScheduleQuery) (results : List Record) :
    Except String Int :=
  match q.err with
  | some message => .error message
  | none =>
    if !ctx.auth then .error "Unauthorized"
    else if (findPosted ctx q results).isSome && !truthy ctx.userAdmin then
      .error msgs.ALREADY_POSTED
    else
      match scanDays ctx q slots now timetable none with
      | .error message => .error message
      | .ok schedule =>
        if scheduleFalsy schedule && !truthy ctx.userAdmin then .error msgs.NO_SCHEDULE
        else .ok (currentMinute now)

/-- The operation `#schedule`: the response body is `{ schedule }`. -/
def schedule (msgs : ErrorStrings) (timetable : Timetable) (slots : List SlotConfig)
    (now : Nat) (ctx : AuthContext) (q : ScheduleQuery) (results : List Record) :
    Response Int :=
  respond (scheduleBody msgs timetable slots now ctx q results)

/-! ## `#question` -/

/-- The list `omitParams`. -/
def omitParams : List String :=
  ["admin_message_id", "correct_option", "explanation", "screenshot", "approved",
    "schedule", "poll_id", "week", "year"]

/-- The message thrown when the question is missing or hidden. -/
def notFound : String := "Question not found"

/-- The value assigned to `docData.canEdit`:
`((docData.author === this.user?.code && !docData.approved) || this.user?.admin) && !docData.poll_id`. -/
def canEdit (ctx : AuthContext) (docData : Record) : Value :=
  jsAnd
    (jsOr
      (jsAnd (.bool (strictEq (getProp docData "author") ctx.userCode))
        (jsNot (getProp docData "approved")))
      ctx.userAdmin)
    (jsNot (getProp docData "poll_id"))

/-- The body of the `try` block of `#question`; `question` is the document of
`collection.doc(docId).get()`, `none` when `question.exists` is false. -/
def questionBody (ctx : AuthContext) (err : Option String) (docId : String)
    (question : Option Record) : Except String Record :=
  match err with
  | some message => .error message
  | none =>
    match question with
    | none => .error notFound
    | some data =>
      if !truthy (jsOr (getProp data "approved") (.bool ctx.auth)) then .error notFound
      else
        let docData := if ctx.auth then data else omitPaths data omitParams
        let docData := setProp docData "canEdit" (canEdit ctx docData)
        .ok (assign docData [("docId", .str docId)])

/-- The operation `#question`: the response body is `{ response: docData }`. -/
def question (ctx : AuthContext) (err : Option String) (docId : String)
    (doc : Option Record) : Response Record :=
  respond (questionBody ctx err docId doc)

/-! ## `#list` -/

/-- A document of a query snapshot: `question.id` and `question.data()`. -/
structure Doc where
  id : String
  data : Record
  deriving DecidableEq, Repr

/-- The validated query of `#list`: the validator's `error` and its `value`. -/
structure ListQuery where
  err : Option String
  data : Record
  deriving DecidableEq, Repr

/-- The response body of `#list`; `count` and `nextCursor` are set only on
some paths. -/
structure ListBody where
  response : List Record
  count : Option Nat
  nextPage : Bool
  nextCursor : Option Value
  deriving DecidableEq, Repr

/-- The names picked from the validated query to build `filter`. -/
def filterKeys : List String := ["week", "year", "lang", "topic", "author", "cursor"]

/-- The names a public caller gets from each listed document. -/
def publicKeys : List String := ["docId", "question", "author", "topic", "date"]

/-- The variable `filter` when the documents are matched:
`compact(pick(data, [...]))`, then `filter.approved = true` for a caller
without `this.auth`. -/
def listFilter (ctx : AuthContext) (q : ListQuery) : JsArray :=
  let filter : JsArray := { elems := compact (pick q.data filterKeys), props := [] }
  if !ctx.auth then { filter with props := setProp filter.props "approved" (.bool true) }
  else filter

/-- The record returned for a matched document: `{ docId, ...docData }`. -/
def project (ctx : AuthContext) (d : Doc) : Record :=
  let docData := if !ctx.auth then pick d.data publicKeys else d.data
  assign [("docId", .str d.id)] docData

/-- The callback of `map(questions.docs, ...)`: `undefined` for a document that
does not match the filter. -/
def listEntry (ctx : AuthContext) (q : ListQuery) (d : Doc) : Option Record :=
  if matchesArray (listFilter ctx q) d.data then some (project ctx d) else none

/-- The constant `response` of `#list`: `compact(map(questions.docs, ...))`. -/
def listResponse (ctx : AuthContext) (q : ListQuery) (batch : List Doc) : List Record :=
  compactObjects (batch.map (listEntry ctx q))

/-- The message of the `TypeError` of `last(body.response).date` on an empty
array (the text is the engine's). -/
def lastDateError : String := "Cannot read properties of undefined (reading 'date')"

/-- The windowing block of `#list`, from `if (response.length)` on. -/
def window (week year : Value) (response : List Record) : Except String ListBody :=
  let body : ListBody := { response := [], count := none, nextPage := false, nextCursor := none }
  if response.length != 0 then
    let page := if truthy (jsAnd week year) then response else take response 10
    let body := { body with response := page, count := some page.length }
    if response.length > page.length then
      match last page with
      | none => .error lastDateError
      | some r => .ok { body with nextPage := true, nextCursor := some (getProp r "date") }
    else .ok body
  else .ok body

/-- The body of the `try` block of `#list`; `batch` is `questions.docs`, the
documents the store query returned, in the order of the query. -/
def listBody (ctx : AuthContext) (q : ListQuery) (batch : List Doc) : Except String ListBody :=
  match q.err with
  | some message => .error message
  | none => window (getProp q.data "week") (getProp q.data "year") (listResponse ctx q batch)

/-- The operation `#list`. -/
def list (ctx : AuthContext) (q : ListQuery) (batch : List Doc) : Response ListBody :=
  respond (listBody ctx q batch)

/-! ## Definitions that follow the specification's words -/

/-- The next occurrence of weekday `d` (0 is Sunday) at `h:00:00` in UTC+05:30,
as seconds since the epoch: the first such instant that is not before `now`. -/
def specNextOccurrence (now d h : Nat) : Nat :=
  let clock := now + utcOffset
  let today := clock / 86400
  let target := (today + (d + 7 - weekday clock) % 7) * 86400 + h * 3600
  (if target < clock then target + 7 * 86400 else target) - utcOffset

/-- The filters that section 4.3 of the specification matches in memory: the
`lang`, `topic` and `author` of the query that are supplied with a non-falsy
value, plus the forced `approved: true` for a caller that is not elevated. -/
def specFilter (ctx : AuthContext) (q : ListQuery) : Record :=
  (pick q.data ["lang", "topic", "author"]).filter (fun kv => truthy kv.2) ++
    (if ctx.auth then [] else [("approved", .bool true)])

/-- The match of section 4.3, step 3: every field named by a filter equals the
filter's value. -/
def specMatches (ctx : AuthContext) (q : ListQuery) (d : Doc) : Bool :=
  (specFilter ctx q).all (fun kv => strictEq (getProp d.data kv.1) kv.2)

/-- The matched documents of a fetched batch in the specification's sense, in
fetch order: the documents failing the match are dropped. -/
def specMatched (ctx : AuthContext) (q : ListQuery) (batch : List Doc) : List Doc :=
  batch.filter (specMatches ctx q)

/-! ## Lemmas on plain objects and lodash -/

theorem hasKey_of_lookup {o : Record} {k : String} {v : Value} (h : lookup o k = some v) :
    hasKey o k = true := by
  induction o with
  | nil => simp [lookup] at h
  | cons kv rest ih =>
    obtain ⟨k', v'⟩ := kv
    by_cases hk : k' = k
    · simp [hasKey, hk]
    · have h' : lookup rest k = some v := by simpa [lookup, hk] using h
      have := ih h'
      simp only [hasKey] at this
      simp [hasKey, this]

theorem getProp_of_lookup {o : Record} {k : String} {v : Value} (h : lookup o k = some v) :
    getProp o k = v := by
  simp [getProp, h]

theorem lookup_setProp (o : Record) (k k' : String) (v : Value) :
    lookup (setProp o k v) k' = if k = k' then some v else lookup o k' := by
  induction o with
  | nil => simp [setProp, lookup]
  | cons kv rest ih =>
    obtain ⟨k0, v0⟩ := kv
    by_cases h0 : k0 = k
    · subst h0
      by_cases h1 : k0 = k' <;> simp [setProp, lookup, h1]
    · by_cases h1 : k0 = k'
      · subst h1
        have h2 : ¬ k = k0 := fun h => h0 h.symm
        simp [setProp, lookup, h0, h2]
      · simp [setProp, lookup, h0, h1, ih]

theorem lookup_omitPaths (o : Record) (paths : List String) (k : String) :
    lookup (omitPaths o paths) k = if k ∈ paths then none else lookup o k := by
  induction o with
  | nil => simp [omitPaths, lookup]
  | cons kv rest ih =>
    obtain ⟨k0, v0⟩ := kv
    have ih' : lookup (List.filter (fun kv => !decide (kv.1 ∈ paths)) rest) k =
        if k ∈ paths then none else lookup rest k := by
      simpa [omitPaths] using ih
    by_cases hin : k0 ∈ paths
    · by_cases hk : k0 = k
      · subst hk
        simp [omitPaths, List.filter_cons, hin, ih']
      · simp [omitPaths, List.filter_cons, hin, ih', lookup, hk]
    · by_cases hk : k0 = k
      · subst hk
        simp [omitPaths, List.filter_cons, hin, lookup]
      · simp [omitPaths, List.filter_cons, hin, ih', lookup, hk]

theorem lookup_pick_of_not_mem (o : Record) (paths : List String) (k : String)
    (h : k ∉ paths) : lookup (pick o paths) k = none := by
  induction paths with
  | nil => simp [pick, lookup]
  | cons p rest ih =>
    have hp : ¬ p = k := fun e => h (by simp [e])
    have hrest : k ∉ rest := fun e => h (by simp [e])
    have ih' := ih hrest
    simp only [pick] at ih'
    cases hl : lookup o p with
    | none => simp [pick, List.filterMap_cons, hl, ih']
    | some v => simp [pick, List.filterMap_cons, hl, ih', lookup, hp]

/-- The array `compact(pick(data, [...]))` of `#list` is always empty: the
picked object has no `length`. -/
theorem compact_pick_filterKeys (data : Record) : compact (pick data filterKeys) = [] := by
  have h : lookup (pick data filterKeys) "length" = none :=
    lookup_pick_of_not_mem data filterKeys "length" (by decide)
  simp [compact, h]

/-- The matcher `matches(filter)` of `#list` accepts every document. -/
theorem matchesArray_listFilter (ctx : AuthContext) (q : ListQuery) (o : Record) :
    matchesArray (listFilter ctx q) o = true := by
  have h : (listFilter ctx q).elems = [] := by
    unfold listFilter
    split <;> simp [compact_pick_filterKeys]
  simp [matchesArray, cloneArray, h, isMatch]

theorem listResponse_eq_map (ctx : AuthContext) (q : ListQuery) (batch : List Doc) :
    listResponse ctx q batch = batch.map (project ctx) := by
  induction batch with
  | nil => simp [listResponse, compactObjects]
  | cons d rest ih =>
    simp only [listResponse, compactObjects] at ih
    simp [listResponse, compactObjects, listEntry, matchesArray_listFilter, ih]

/-! ## Lemmas on `#schedule` -/

theorem slotMatches_iff (ctx : AuthContext) (q : ScheduleQuery) (e : SlotEntry) :
    slotMatches ctx q e = true ↔
      Value.str e.assignee = ctx.userCode ∧ Value.str e.topic = q.queryTopic := by
  simp [slotMatches, strictEq]

theorem scanSlots_no_match (ctx : AuthContext) (q : ScheduleQuery) (slots : List SlotConfig)
    (now : Nat) (day : String) (l : List (String × SlotEntry)) (s : Option Int)
    (h : ∀ p ∈ l, slotMatches ctx q p.2 = false) :
    scanSlots ctx q slots now day l s = .ok s := by
  induction l generalizing s with
  | nil => simp [scanSlots]
  | cons p rest ih =>
    obtain ⟨slot, e⟩ := p
    have hp : slotMatches ctx q e = false := h (slot, e) (by simp)
    have hrest : ∀ p ∈ rest, slotMatches ctx q p.2 = false :=
      fun p hp' => h p (List.mem_cons_of_mem _ hp')
    simp [scanSlots, hp, ih s hrest]

theorem scanDays_no_match (ctx : AuthContext) (q : ScheduleQuery) (slots : List SlotConfig)
    (now : Nat) (tt : Timetable) (s : Option Int)
    (h : ∀ d ∈ tt, ∀ p ∈ d.2, slotMatches ctx q p.2 = false) :
    scanDays ctx q slots now tt s = .ok s := by
  induction tt generalizing s with
  | nil => simp [scanDays]
  | cons d rest ih =>
    obtain ⟨day, daySlots⟩ := d
    have hd : scanSlots ctx q slots now day daySlots s = .ok s :=
      scanSlots_no_match ctx q slots now day daySlots s (h (day, daySlots) (by simp))
    have hrest : ∀ d ∈ rest, ∀ p ∈ d.2, slotMatches ctx q p.2 = false :=
      fun d hd' => h d (List.mem_cons_of_mem _ hd')
    simp [scanDays, hd, ih s hrest]

theorem find_code_of_mem (slots : List SlotConfig) (slot : String)
    (h : ∃ c ∈ slots, c.code = slot) :
    ∃ c, find slots (fun c => c.code == slot) = some c := by
  induction slots with
  | nil => simp at h
  | cons c rest ih =>
    by_cases hc : c.code = slot
    · exact ⟨c, by simp [find, List.find?_cons, hc]⟩
    · obtain ⟨c', hc', hcode⟩ := h
      have hmem : c' ∈ rest := by
        rcases List.mem_cons.mp hc' with heq | hmem
        · exact absurd (heq ▸ hcode) hc
        · exact hmem
      obtain ⟨c'', hfind⟩ := ih ⟨c', hmem, hcode⟩
      refine ⟨c'', ?_⟩
      simp only [find] at hfind
      simp [find, List.find?_cons, hc, hfind]

theorem scanSlots_configured (ctx : AuthContext) (q : ScheduleQuery) (slots : List SlotConfig)
    (now : Nat) (day : String) (l : List (String × SlotEntry)) (s : Option Int)
    (h : ∀ p ∈ l, slotMatches ctx q p.2 = true → ∃ c ∈ slots, c.code = p.1) :
    ∃ s', scanSlots ctx q slots now day l s = .ok s' := by
  induction l generalizing s with
  | nil => exact ⟨s, by simp [scanSlots]⟩
  | cons p rest ih =>
    obtain ⟨slot, e⟩ := p
    have hrest : ∀ p ∈ rest, slotMatches ctx q p.2 = true → ∃ c ∈ slots, c.code = p.1 :=
      fun p hp' => h p (List.mem_cons_of_mem _ hp')
    by_cases hm : slotMatches ctx q e = true
    · obtain ⟨c, hc⟩ := find_code_of_mem slots slot (h (slot, e) (by simp) hm)
      obtain ⟨s', hs'⟩ := ih (some (slotInstant now c.startHr day)) hrest
      exact ⟨s', by simp [scanSlots, hm, hc, hs']⟩
    · obtain ⟨s', hs'⟩ := ih s hrest
      exact ⟨s', by simp [scanSlots, hm, hs']⟩

theorem scanDays_configured (ctx : AuthContext) (q : ScheduleQuery) (slots : List SlotConfig)
    (now : Nat) (tt : Timetable) (s : Option Int)
    (h : ∀ d ∈ tt, ∀ p ∈ d.2, slotMatches ctx q p.2 = true → ∃ c ∈ slots, c.code = p.1) :
    ∃ s', scanDays ctx q slots now tt s = .ok s' := by
  induction tt generalizing s with
  | nil => exact ⟨s, by simp [scanDays]⟩
  | cons d rest ih =>
    obtain ⟨day, daySlots⟩ := d
    obtain ⟨s1, hs1⟩ := scanSlots_configured ctx q slots now day daySlots s
      (h (day, daySlots) (by simp))
    obtain ⟨s2, hs2⟩ := ih s1 (fun d hd' => h d (List.mem_cons_of_mem _ hd'))
    exact ⟨s2, by simp [scanDays, hs1, hs2]⟩

theorem findPosted_isSome (ctx : AuthContext) (q : ScheduleQuery) (results : List Record)
    (r : Record) (hr : r ∈ results)
    (happ : lookup r "approved" = some (.bool true))
    (htopic : lookup r "topic" = some q.dataTopic)
    (hauthor : lookup r "author" = some ctx.userCode) :
    (findPosted ctx q results).isSome = true := by
  have hm : matchesSource
      [("approved", .bool true), ("topic", q.dataTopic), ("author", ctx.userCode)] r = true := by
    simp [matchesSource, isMatch, strictEq, getProp_of_lookup happ, getProp_of_lookup htopic,
      getProp_of_lookup hauthor, hasKey_of_lookup happ, hasKey_of_lookup htopic,
      hasKey_of_lookup hauthor]
  simp only [findPosted, find, List.find?_isSome]
  exact ⟨r, hr, hm⟩

theorem findPosted_none (ctx : AuthContext) (q : ScheduleQuery) (results : List Record)
    (h : ∀ r ∈ results, ¬ (getProp r "approved" = .bool true ∧
      getProp r "topic" = q.dataTopic ∧ getProp r "author" = ctx.userCode)) :
    findPosted ctx q results = none := by
  simp only [findPosted, find, List.find?_eq_none]
  intro r hr hm
  apply h r hr
  simp only [matchesSource, isMatch, strictEq, List.all_cons, List.all_nil, Bool.and_true,
    Bool.and_eq_true, decide_eq_true_eq] at hm
  exact ⟨hm.1.1.symm, hm.2.1.1.symm, hm.2.2.1.symm⟩

theorem currentMinute_eq (now : Nat) : currentMinute now = ((now - now % 60 : Nat) : Int) := by
  have h1 : (now + 19800) % 60 = now % 60 := by omega
  have h2 : now % 60 ≤ now := Nat.mod_le _ _
  simp only [currentMinute, unix, setSecond, localClock, utcOffset, h1]
  omega

/-! ## Properties of `#schedule` -/

/-- C1: for the non-admin caller `C001` asking for `algebra`, with the single
timetable entry Monday/S1 for `C001` and `algebra`, `S1.startHr = 9` and no
submission this week, at Wednesday 2024-01-03 12:34:56 UTC+05:30
(`now = 1704265496`), `#schedule` succeeds with `schedule = 1704265440`, the
current instant with its seconds cleared: the final conditional overwrites the
instant computed in the loop. The next Monday 09:00:00 UTC+05:30 is
`1704684600`, and the instant the loop had computed, `1704079800`, is the
Monday of the running week, already past. -/
theorem schedule_returns_current_minute :
    schedule ⟨"ALREADY_POSTED", "NO_SCHEDULE"⟩
        [("Monday", [("S1", ⟨"algebra", "C001"⟩)])] [⟨"S1", 9⟩] 1704265496
        ⟨true, some ⟨some "C001", false⟩⟩ ⟨none, .str "algebra", .str "algebra"⟩ []
      = .resp_200 1704265440 ∧
    weekdaysParse "Monday" = some 1 ∧
    specNextOccurrence 1704265496 1 9 = 1704684600 ∧
    slotInstant 1704265496 9 "Monday" = 1704079800 := by
  refine ⟨?_, ?_, ?_, ?_⟩
  · decide
  · decide
  · decide
  · decide

/-- C2: for an authenticated non-admin caller and valid input, if the
current-week submissions returned by the store contain a record with
`approved == true`, `topic` equal to the requested topic and `author` equal to
the caller's code, then `#schedule` answers the error envelope carrying
`ALREADY_POSTED` (so no schedule), whatever the timetable, the slot
configuration and the clock are. -/
theorem schedule_already_posted (msgs : ErrorStrings) (timetable : Timetable)
    (slots : List SlotConfig) (now : Nat) (ctx : AuthContext) (q : ScheduleQuery)
    (results : List Record) (r : Record)
    (herr : q.err = none) (hauth : ctx.auth = true) (hadmin : truthy ctx.userAdmin = false)
    (hr : r ∈ results)
    (happ : lookup r "approved" = some (.bool true))
    (htopic : lookup r "topic" = some q.dataTopic)
    (hauthor : lookup r "author" = some ctx.userCode) :
    schedule msgs timetable slots now ctx q results = .resp_500 msgs.ALREADY_POSTED := by
  have hf := findPosted_isSome ctx q results r hr happ htopic hauthor
  simp [schedule, scheduleBody, respond, herr, hauth, hadmin, hf]

theorem schedule_already_posted_witness :
    schedule ⟨"ALREADY_POSTED", "NO_SCHEDULE"⟩
        [("Monday", [("S1", ⟨"algebra", "C001"⟩)])] [⟨"S1", 9⟩] 1704265496
        ⟨true, some ⟨some "C001", false⟩⟩ ⟨none, .str "algebra", .str "algebra"⟩
        [[("approved", .bool true), ("topic", .str "algebra"), ("author", .str "C001")]]
      = .resp_500 "ALREADY_POSTED" :=
  schedule_already_posted ⟨"ALREADY_POSTED", "NO_SCHEDULE"⟩
    [("Monday", [("S1", ⟨"algebra", "C001"⟩)])] [⟨"S1", 9⟩] 1704265496
    ⟨true, some ⟨some "C001", false⟩⟩ ⟨none, .str "algebra", .str "algebra"⟩
    [[("approved", .bool true), ("topic", .str "algebra"), ("author", .str "C001")]]
    [("approved", .bool true), ("topic", .str "algebra"), ("author", .str "C001")]
    rfl rfl rfl (by simp) (by decide) (by decide) (by decide)

/-- C3: for an authenticated non-admin caller and valid input, if no timetable
entry has `assignee` equal to the caller's code and `topic` equal to the
requested topic, then `#schedule` answers an error envelope; and if moreover no
current-week submission is approved with that topic and that author, the error
is `NO_SCHEDULE`. -/
theorem schedule_no_entry (msgs : ErrorStrings) (timetable : Timetable)
    (slots : List SlotConfig) (now : Nat) (ctx : AuthContext) (q : ScheduleQuery)
    (results : List Record)
    (herr : q.err = none) (hauth : ctx.auth = true) (hadmin : truthy ctx.userAdmin = false)
    (hno : ∀ day daySlots slot e, (day, daySlots) ∈ timetable → (slot, e) ∈ daySlots →
      ¬ (Value.str e.assignee = ctx.userCode ∧ Value.str e.topic = q.queryTopic)) :
    (∃ message, schedule msgs timetable slots now ctx q results = .resp_500 message) ∧
    ((∀ r ∈ results, ¬ (getProp r "approved" = .bool true ∧
        getProp r "topic" = q.dataTopic ∧ getProp r "author" = ctx.userCode)) →
      schedule msgs timetable slots now ctx q results = .resp_500 msgs.NO_SCHEDULE) := by
  have hscan : scanDays ctx q slots now timetable none = .ok none := by
    apply scanDays_no_match
    intro d hd p hp
    have := hno d.1 d.2 p.1 p.2 hd hp
    rw [← slotMatches_iff] at this
    simpa using this
  constructor
  · by_cases hf : (findPosted ctx q results).isSome = true
    · exact ⟨msgs.ALREADY_POSTED, by
        simp [schedule, scheduleBody, respond, herr, hauth, hadmin, hf]⟩
    · exact ⟨msgs.NO_SCHEDULE, by
        simp [schedule, scheduleBody, respond, herr, hauth, hadmin, hf, hscan, scheduleFalsy]⟩
  · intro hnone
    have hf := findPosted_none ctx q results hnone
    simp [schedule, scheduleBody, respond, herr, hauth, hadmin, hf, hscan, scheduleFalsy]

theorem schedule_no_entry_witness :
    (∃ message, schedule ⟨"ALREADY_POSTED", "NO_SCHEDULE"⟩
        [("Monday", [("S1", ⟨"algebra", "C001"⟩)])] [⟨"S1", 9⟩] 1704265496
        ⟨true, some ⟨some "C002", false⟩⟩ ⟨none, .str "algebra", .str "algebra"⟩ []
      = .resp_500 message) ∧
    ((∀ r ∈ ([] : List Record), ¬ (getProp r "approved" = .bool true ∧
        getProp r "topic" = Value.str "algebra" ∧ getProp r "author" = Value.str "C002")) →
      schedule ⟨"ALREADY_POSTED", "NO_SCHEDULE"⟩
        [("Monday", [("S1", ⟨"algebra", "C001"⟩)])] [⟨"S1", 9⟩] 1704265496
        ⟨true, some ⟨some "C002", false⟩⟩ ⟨none, .str "algebra", .str "algebra"⟩ []
      = .resp_500 "NO_SCHEDULE") :=
  schedule_no_entry ⟨"ALREADY_POSTED", "NO_SCHEDULE"⟩
    [("Monday", [("S1", ⟨"algebra", "C001"⟩)])] [⟨"S1", 9⟩] 1704265496
    ⟨true, some ⟨some "C002", false⟩⟩ ⟨none, .str "algebra", .str "algebra"⟩ []
    rfl rfl rfl (by
      intro day daySlots slot e hd hs
      simp only [List.mem_singleton, Prod.mk.injEq] at hd
      obtain ⟨-, rfl⟩ := hd
      simp only [List.mem_singleton, Prod.mk.injEq] at hs
      obtain ⟨-, rfl⟩ := hs
      simp [AuthContext.userCode])

/-- C4 as stated fails: for the authenticated admin `A001` asking for
`algebra`, with the timetable entry Monday/S9 for `A001` and `algebra` and a
slot configuration that has no slot `S9`, `#schedule` answers an error
envelope (the message of the `TypeError` of the destructuring). -/
theorem schedule_admin_unconfigured_slot :
    schedule ⟨"ALREADY_POSTED", "NO_SCHEDULE"⟩
        [("Monday", [("S9", ⟨"algebra", "A001"⟩)])] [⟨"S1", 9⟩] 1704265496
        ⟨true, some ⟨some "A001", true⟩⟩ ⟨none, .str "algebra", .str "algebra"⟩ []
      = .resp_500 destructureError := by
  decide

/-- C4 as amended: for an authenticated admin caller and valid input, whatever
the topic and the current-week submissions are, if every timetable entry that
matches the caller and the topic uses a slot code that has an entry in the slot
configuration, then `#schedule` answers a success envelope; and when no
timetable entry matches, the returned `schedule` is at least the request time
minus 60 seconds. -/
theorem schedule_admin_ok (msgs : ErrorStrings) (timetable : Timetable)
    (slots : List SlotConfig) (now : Nat) (ctx : AuthContext) (q : ScheduleQuery)
    (results : List Record)
    (herr : q.err = none) (hauth : ctx.auth = true) (hadmin : ctx.userAdmin = .bool true)
    (hcfg : ∀ day daySlots slot e, (day, daySlots) ∈ timetable → (slot, e) ∈ daySlots →
      Value.str e.assignee = ctx.userCode → Value.str e.topic = q.queryTopic →
      ∃ c ∈ slots, c.code = slot) :
    ∃ s, schedule msgs timetable slots now ctx q results = .resp_200 s ∧
      ((∀ day daySlots slot e, (day, daySlots) ∈ timetable → (slot, e) ∈ daySlots →
          ¬ (Value.str e.assignee = ctx.userCode ∧ Value.str e.topic = q.queryTopic)) →
        (now : Int) - 60 ≤ s) := by
  obtain ⟨s', hs'⟩ := scanDays_configured ctx q slots now timetable none (by
    intro d hd p hp hm
    rw [slotMatches_iff] at hm
    exact hcfg d.1 d.2 p.1 p.2 hd hp hm.1 hm.2)
  refine ⟨currentMinute now, ?_, ?_⟩
  · simp [schedule, scheduleBody, respond, herr, hauth, hadmin, hs', truthy]
  · intro _
    rw [currentMinute_eq]
    have h1 : now % 60 < 60 := Nat.mod_lt _ (by decide)
    omega

theorem schedule_admin_ok_witness :
    ∃ s, schedule ⟨"ALREADY_POSTED", "NO_SCHEDULE"⟩
        [("Monday", [("S1", ⟨"algebra", "A001"⟩)])] [⟨"S1", 9⟩] 1704265496
        ⟨true, some ⟨some "A001", true⟩⟩ ⟨none, .str "algebra", .str "algebra"⟩ []
      = .resp_200 s ∧
      ((∀ day daySlots slot e,
          (day, daySlots) ∈ ([("Monday", [("S1", ⟨"algebra", "A001"⟩)])] : Timetable) →
          (slot, e) ∈ daySlots →
          ¬ (Value.str e.assignee = Value.str "A001" ∧
              Value.str e.topic = Value.str "algebra")) →
        ((1704265496 : Nat) : Int) - 60 ≤ s) :=
  schedule_admin_ok ⟨"ALREADY_POSTED", "NO_SCHEDULE"⟩
    [("Monday", [("S1", ⟨"algebra", "A001"⟩)])] [⟨"S1", 9⟩] 1704265496
    ⟨true, some ⟨some "A001", true⟩⟩ ⟨none, .str "algebra", .str "algebra"⟩ []
    rfl rfl rfl (by
      intro day daySlots slot e hd hs _ _
      simp only [List.mem_singleton, Prod.mk.injEq] at hd
      obtain ⟨-, rfl⟩ := hd
      simp only [List.mem_singleton, Prod.mk.injEq] at hs
      obtain ⟨rfl, -⟩ := hs
      exact ⟨⟨"S1", 9⟩, by simp, rfl⟩)

/-! ## Properties of `#question` -/

theorem questionBody_ok (ctx : AuthContext) (docId : String) (data : Record)
    (h : truthy (jsOr (getProp data "approved") (.bool ctx.auth)) = true) :
    questionBody ctx none docId (some data) =
      .ok (setProp (setProp (if ctx.auth then data else omitPaths data omitParams) "canEdit"
        (canEdit ctx (if ctx.auth then data else omitPaths data omitParams)))
        "docId" (.str docId)) := by
  simp [questionBody, h, assign]

theorem questionBody_hidden (ctx : AuthContext) (docId : String) (data : Record)
    (h : truthy (jsOr (getProp data "approved") (.bool ctx.auth)) = false) :
    questionBody ctx none docId (some data) = .error notFound := by
  simp [questionBody, h]

theorem visible_iff (ctx : AuthContext) (data : Record) :
    truthy (jsOr (getProp data "approved") (.bool ctx.auth)) = false ↔
      truthy (getProp data "approved") = false ∧ ctx.auth = false := by
  unfold jsOr
  cases h : truthy (getProp data "approved")
  · simp [truthy]
  · simp [h]

/-- C5: for the stored question `{author: "C001", approved: true, poll_id: "P1"}`
and the caller with `auth == false`, `user.code == "C001"`, `user.admin == false`,
`#question` succeeds and the returned record has `canEdit == true`, although
`poll_id` is present: `canEdit` is computed on the record from which
`approved` and `poll_id` have already been omitted. For the same question and
the same user with `auth == true` the returned `canEdit` is `false`. -/
theorem question_public_canEdit_published :
    question ⟨false, some ⟨some "C001", false⟩⟩ none "Q1"
        (some [("author", .str "C001"), ("approved", .bool true), ("poll_id", .str "P1")])
      = .resp_200 [("author", .str "C001"), ("canEdit", .bool true), ("docId", .str "Q1")] ∧
    question ⟨true, some ⟨some "C001", false⟩⟩ none "Q1"
        (some [("author", .str "C001"), ("approved", .bool true), ("poll_id", .str "P1")])
      = .resp_200 [("author", .str "C001"), ("approved", .bool true), ("poll_id", .str "P1"),
          ("canEdit", .bool false), ("docId", .str "Q1")] := by
  constructor <;> decide

/-- C7: with valid input, `#question` answers the not-found error exactly when
the question does not exist, or exists with a falsy `approved` while the caller
is not elevated, and it answers no other error; when `approved` is stored as
the data model has it (absent or a boolean), this is exactly when the question
does not exist, or exists with `approved` not `true` while the caller is not
elevated. A failing call returns the error envelope only, no field of the
record. -/
theorem question_not_found_iff (ctx : AuthContext) (docId : String) (doc : Option Record) :
    (question ctx none docId doc = .resp_500 notFound ↔
      doc = none ∨ ∃ data, doc = some data ∧
        truthy (getProp data "approved") = false ∧ ctx.auth = false) ∧
    (∀ message, question ctx none docId doc = .resp_500 message → message = notFound) ∧
    ((∀ data, doc = some data →
        lookup data "approved" = none ∨ ∃ b, lookup data "approved" = some (.bool b)) →
      (question ctx none docId doc = .resp_500 notFound ↔
        doc = none ∨ ∃ data, doc = some data ∧
          lookup data "approved" ≠ some (.bool true) ∧ ctx.auth = false)) := by
  cases doc with
  | none => simp [question, questionBody, respond]
  | some data =>
    cases hv : truthy (jsOr (getProp data "approved") (.bool ctx.auth)) with
    | true =>
      have hv' := hv
      have hnot : ¬ (truthy (getProp data "approved") = false ∧ ctx.auth = false) := by
        rw [← visible_iff]; simp [hv]
      refine ⟨?_, ?_, ?_⟩
      · simp only [question, questionBody_ok ctx docId data hv, respond]
        simp
        intro h
        by_contra ha
        exact hnot ⟨h, by simpa using ha⟩
      · intro message hm
        simp [question, questionBody_ok ctx docId data hv, respond] at hm
      · intro htyped
        simp only [question, questionBody_ok ctx docId data hv, respond]
        simp
        intro hne
        by_contra ha
        apply hnot
        refine ⟨?_, by simpa using ha⟩
        rcases htyped data rfl with hnone | ⟨b, hb⟩
        · simp [getProp, hnone, truthy]
        · cases b with
          | true => exact absurd hb hne
          | false => simp [getProp, hb, truthy]
    | false =>
      have hcond := (visible_iff ctx data).mp hv
      refine ⟨?_, ?_, ?_⟩
      · simp only [question, questionBody_hidden ctx docId data hv, respond]
        simp [hcond.1, hcond.2]
      · intro message hm
        simp [question, questionBody_hidden ctx docId data hv, respond] at hm
        exact hm.symm
      · intro _
        simp only [question, questionBody_hidden ctx docId data hv, respond]
        simp [hcond.2]
        intro hb
        have := hcond.1
        simp [getProp, hb, truthy] at this

theorem question_not_found_iff_witness :
    (question ⟨false, none⟩ none "Q1"
        (some [("author", .str "C001"), ("approved", .bool false)]) = .resp_500 notFound ↔
      (some [("author", Value.str "C001"), ("approved", Value.bool false)] : Option Record) = none ∨
        ∃ data, (some [("author", Value.str "C001"), ("approved", Value.bool false)]
            : Option Record) = some data ∧
          lookup data "approved" ≠ some (.bool true) ∧ (⟨false, none⟩ : AuthContext).auth = false) :=
  (question_not_found_iff ⟨false, none⟩ "Q1"
    (some [("author", .str "C001"), ("approved", .bool false)])).2.2 (by
      intro data hd
      cases hd
      exact Or.inr ⟨false, by decide⟩)

/-- C8: when `#question` succeeds for a caller with `auth == false`, the
returned record has none of the nine names of `omitParams`
(`admin_message_id`, `correct_option`, `explanation`, `screenshot`, `approved`,
`schedule`, `poll_id`, `week`, `year`), and every other name except `canEdit`
and `docId` has in it exactly what the stored document has. -/
theorem question_public_fields (ctx : AuthContext) (err : Option String) (docId : String)
    (doc : Option Record) (rec : Record)
    (hauth : ctx.auth = false)
    (hok : question ctx err docId doc = .resp_200 rec) :
    ∃ data, doc = some data ∧
      (∀ k ∈ omitParams, lookup rec k = none) ∧
      (∀ k, k ∉ omitParams → k ≠ "canEdit" → k ≠ "docId" → lookup rec k = lookup data k) := by
  cases err with
  | some message => simp [question, questionBody, respond] at hok
  | none =>
    cases doc with
    | none => simp [question, questionBody, respond] at hok
    | some data =>
      cases hv : truthy (jsOr (getProp data "approved") (.bool ctx.auth)) with
      | false => simp [question, questionBody_hidden ctx docId data hv, respond] at hok
      | true =>
        simp only [question, questionBody_ok ctx docId data hv, respond, hauth,
          Response.resp_200.injEq, Bool.false_eq_true, if_false] at hok
        refine ⟨data, rfl, ?_, ?_⟩
        · intro k hk
          have h1 : ¬ "docId" = k := by
            intro e; subst e; revert hk; decide
          have h2 : ¬ "canEdit" = k := by
            intro e; subst e; revert hk; decide
          rw [← hok, lookup_setProp, if_neg h1, lookup_setProp, if_neg h2, lookup_omitPaths,
            if_pos hk]
        · intro k hk hc hd
          rw [← hok, lookup_setProp, if_neg (fun e => hd e.symm), lookup_setProp,
            if_neg (fun e => hc e.symm), lookup_omitPaths, if_neg hk]

theorem question_public_fields_witness :
    ∃ data, (some [("author", Value.str "C001"), ("approved", Value.bool true),
        ("correct_option", Value.num 1)] : Option Record) = some data ∧
      (∀ k ∈ omitParams,
        lookup [("author", .str "C001"), ("canEdit", .undefined), ("docId", .str "Q1")] k
          = none) ∧
      (∀ k, k ∉ omitParams → k ≠ "canEdit" → k ≠ "docId" →
        lookup [("author", .str "C001"), ("canEdit", .undefined), ("docId", .str "Q1")] k
          = lookup data k) :=
  question_public_fields ⟨false, none⟩ none "Q1"
    (some [("author", .str "C001"), ("approved", .bool true), ("correct_option", .num 1)])
    [("author", .str "C001"), ("canEdit", .undefined), ("docId", .str "Q1")]
    rfl (by decide)

/-! ## Properties of `#list` -/

/-- C6: for the caller with `auth == false` and the query `topic=algebra`, on
the fetched batch of `d1` (approved, topic `geometry`) and `d2` (not approved,
topic `algebra`), `#list` returns both records: the `filter` built by `compact`
on the picked object is the empty array, and `matches` clones it without its
`approved` property, so no document is dropped. -/
theorem list_public_unfiltered :
    list ⟨false, none⟩ ⟨none, [("topic", .str "algebra")]⟩
        [⟨"d1", [("approved", .bool true), ("topic", .str "geometry"), ("date", .num 20)]⟩,
          ⟨"d2", [("approved", .bool false), ("topic", .str "algebra"), ("date", .num 10)]⟩]
      = .resp_200
          { response :=
              [[("docId", .str "d1"), ("topic", .str "geometry"), ("date", .num 20)],
                [("docId", .str "d2"), ("topic", .str "algebra"), ("date", .num 10)]],
            count := some 2, nextPage := false, nextCursor := none } := by
  decide

theorem window_truncated (week year : Value) (m : List Record)
    (h : truthy (jsAnd week year) = false) :
    ∃ body, window week year m = .ok body ∧
      body.response = m.take 10 ∧
      (body.nextPage = true ↔ 10 < m.length) ∧
      (10 < m.length →
        ∃ r, body.response.getLast? = some r ∧ body.nextCursor = some (getProp r "date")) ∧
      (¬ 10 < m.length → body.nextPage = false ∧ body.nextCursor = none) := by
  by_cases h0 : m.length = 0
  · have hm : m = [] := List.length_eq_zero.mp h0
    subst hm
    exact ⟨ListBody.mk [] none false none, by simp [window], by simp, by simp, by simp,
      by simp⟩
  · by_cases h10 : 10 < m.length
    · have hne : m.take 10 ≠ [] := by
        intro e
        have := congrArg List.length e
        simp only [List.length_take, List.length_nil] at this
        omega
      obtain ⟨r, hr⟩ : ∃ r, (m.take 10).getLast? = some r :=
        ⟨(m.take 10).getLast hne, List.getLast?_eq_getLast _ hne⟩
      have hlen : min 10 m.length < m.length := by omega
      refine ⟨ListBody.mk (m.take 10) (some (m.take 10).length) true (some (getProp r "date")),
        ?_, rfl, by simp [h10], ?_, ?_⟩
      · simp [window, h0, h, take, last, hr, hlen]
      · intro _
        exact ⟨r, hr, rfl⟩
      · intro hc
        exact absurd h10 hc
    · have hlen : ¬ min 10 m.length < m.length := by omega
      refine ⟨ListBody.mk (m.take 10) (some (m.take 10).length) false none,
        ?_, rfl, by simp [h10], ?_, ?_⟩
      · simp [window, h0, h, take, hlen]
      · intro hc
        exact absurd hc h10
      · intro _
        exact ⟨rfl, rfl⟩

theorem window_whole (week year : Value) (m : List Record)
    (h : truthy (jsAnd week year) = true) :
    ∃ body, window week year m = .ok body ∧
      body.response = m ∧ body.nextPage = false ∧ body.nextCursor = none := by
  by_cases h0 : m.length = 0
  · have hm : m = [] := List.length_eq_zero.mp h0
    subst hm
    exact ⟨ListBody.mk [] none false none, by simp [window], rfl, rfl, rfl⟩
  · exact ⟨ListBody.mk m (some m.length) false none, by simp [window, h0, h], rfl, rfl, rfl⟩

/-- With valid input `#list` windows the whole fetched batch: no document is
dropped before the windowing block. -/
theorem listBody_eq_window (ctx : AuthContext) (q : ListQuery) (batch : List Doc)
    (herr : q.err = none) :
    listBody ctx q batch =
      window (getProp q.data "week") (getProp q.data "year") (batch.map (project ctx)) := by
  simp [listBody, herr, listResponse_eq_map]

/-- C9: for the caller with `auth == false` and the query `topic=algebra`
(neither `week` nor `year`), on the fetched batch of eleven approved `geometry`
documents `d0 .. d10` (dates 100 down to 90) followed by the approved `algebra`
document `d11` (date 89), the only matched document in the specification's
sense is `d11` (`n = 1`), yet `#list` returns the ten records of `d0 .. d9`,
none of which matches, with `nextPage == true` and `nextCursor == 91`: the
windowing runs on a list from which no document was dropped. -/
theorem list_window_over_unmatched :
    list ⟨false, none⟩ ⟨none, [("topic", .str "algebra")]⟩
        ((List.range 11).map (fun i => (⟨"d" ++ toString i,
            [("approved", .bool true), ("topic", .str "geometry"),
              ("date", .num (100 - i))]⟩ : Doc)) ++
          [⟨"d11", [("approved", .bool true), ("topic", .str "algebra"), ("date", .num 89)]⟩])
      = .resp_200
          { response := (List.range 10).map (fun i =>
              [("docId", .str ("d" ++ toString i)), ("topic", .str "geometry"),
                ("date", .num (100 - i))]),
            count := some 10, nextPage := true, nextCursor := some (.num 91) } ∧
    specMatched ⟨false, none⟩ ⟨none, [("topic", .str "algebra")]⟩
        ((List.range 11).map (fun i => (⟨"d" ++ toString i,
            [("approved", .bool true), ("topic", .str "geometry"),
              ("date", .num (100 - i))]⟩ : Doc)) ++
          [⟨"d11", [("approved", .bool true), ("topic", .str "algebra"), ("date", .num 89)]⟩])
      = [⟨"d11", [("approved", .bool true), ("topic", .str "algebra"), ("date", .num 89)]⟩] := by
  constructor <;> decide

/-- C10: for the caller with `auth == false` and the query
`week=1, year=2024, topic=algebra`, on the fetched batch of eleven unapproved
`geometry` documents `d0 .. d10` followed by the approved `algebra` document
`d11`, the only matched document in the specification's sense is `d11`, yet
`#list` returns the records of all twelve documents (with `nextPage == false`
and no `nextCursor`): nothing is truncated, and nothing is dropped either. -/
theorem list_whole_batch_unmatched :
    list ⟨false, none⟩
        ⟨none, [("week", .num 1), ("year", .num 2024), ("topic", .str "algebra")]⟩
        ((List.range 11).map (fun i => (⟨"d" ++ toString i,
            [("approved", .bool false), ("topic", .str "geometry"),
              ("date", .num (100 - i))]⟩ : Doc)) ++
          [⟨"d11", [("approved", .bool true), ("topic", .str "algebra"), ("date", .num 89)]⟩])
      = .resp_200
          { response := (List.range 11).map (fun i =>
                [("docId", .str ("d" ++ toString i)), ("topic", .str "geometry"),
                  ("date", .num (100 - i))]) ++
              [[("docId", .str "d11"), ("topic", .str "algebra"), ("date", .num 89)]],
            count := some 12, nextPage := false, nextCursor := none } ∧
    specMatched ⟨false, none⟩
        ⟨none, [("week", .num 1), ("year", .num 2024), ("topic", .str "algebra")]⟩
        ((List.range 11).map (fun i => (⟨"d" ++ toString i,
            [("approved", .bool false), ("topic", .str "geometry"),
              ("date", .num (100 - i))]⟩ : Doc)) ++
          [⟨"d11", [("approved", .bool true), ("topic", .str "algebra"), ("date", .num 89)]⟩])
      = [⟨"d11", [("approved", .bool true), ("topic", .str "algebra"), ("date", .num 89)]⟩] := by
  constructor <;> decide

end McqGet
